import Mathlib

/-!
Verification of the declarative validation combinator library
(k8s.io/apimachinery validate / validation packages, validation-gen output
tests, and the CEL reflection adapter) against its natural-language
specification.

Go values are shallowly embedded:
* `*T` (a nilable pointer) becomes `Option T`;
* Go `comparable` element types become Lean types with `DecidableEq`,
  restricted to pointer-free values so that Go `==` coincides with
  structural equality;
* the operation tag, field paths and `field.Error` values are explicit
  inductive data.
-/

/-- Operation type tag (`operation.Operation.Type`): the validators only
distinguish `Update` from everything else (`op.Type != operation.Update`). -/
inductive OpType where
  | Create
  | Update
deriving DecidableEq, BEq, Repr

/-- One segment of a field path: a child field name (`Path.Child`), a list
index (`Path.Index`), or a list-as-map key (`Path.Key`). -/
inductive PathSeg where
  | child (name : String)
  | index (i : Nat)
  | key (k : String)
deriving DecidableEq, Repr

/-- A field path is an ordered sequence of segments; children are derived by
appending, never by mutation. -/
abbrev FieldPath := List PathSeg

/-- Error kinds of `field.Error` used by this library. -/
inductive ErrKind where
  | Required
  | Invalid
  | Forbidden
  | NotSupported
  | Duplicate
  | InternalError
deriving DecidableEq, Repr

/-- Modelled from the spec: the `field.Error` record (the
`k8s.io/apimachinery/pkg/util/validation/field` package is not under src/).
Per the spec an error is a (kind, field path, detail) triple; tests
additionally match on an origin tag attached with `WithOrigin`, and
`field.NotSupported` carries the printed bad value. -/
structure FieldError where
  kind : ErrKind
  path : FieldPath
  value : String
  detail : String
  origin : String
deriving DecidableEq, Repr

/-- `field.Forbidden(fldPath, detail)`. -/
def FieldError.forbidden (fldPath : FieldPath) (detail : String) : FieldError :=
  { kind := ErrKind.Forbidden, path := fldPath, value := "", detail := detail, origin := "" }

/-- `field.NotSupported(fldPath, value, validValues)`: the printed bad value
and the list of allowed values rendered into the detail. -/
def FieldError.notSupported (fldPath : FieldPath) (value : String) (validValues : List String) : FieldError :=
  { kind := ErrKind.NotSupported, path := fldPath, value := value,
    detail := "supported values: " ++ String.intercalate ", " validValues, origin := "" }

/-- `(*field.Error).WithOrigin(o)`. -/
def FieldError.withOrigin (e : FieldError) (o : String) : FieldError :=
  { e with origin := o }

namespace validate

/-- `EqOneOf` (part_001 lines 28-45): nil value pointer is accepted; a set
value must equal one of `allowed`, otherwise one NotSupported error with
origin "k8s:eqOneOf" is returned.  `fmtv` models `fmt.Sprintf("%v", ·)`. -/
def EqOneOf {T : Type} [DecidableEq T] (_op : OpType) (fldPath : FieldPath)
    (value _oldValue : Option T) (allowed : List T) (fmtv : T → String) : List FieldError :=
  match value with
  | none => []
  | some v =>
    if allowed.any (fun a => v = a) then []
    else [(FieldError.notSupported fldPath (fmtv v) (allowed.map fmtv)).withOrigin "k8s:eqOneOf"]

/-- `FrozenByCompare` (part_001 lines 83-96): on Update, forbids every
transition; both-nil pointers are accepted, one-nil or unequal pointees are
forbidden. -/
def FrozenByCompare {T : Type} [DecidableEq T] (op : OpType) (fldPath : FieldPath)
    (value oldValue : Option T) : List FieldError :=
  if op ≠ OpType.Update then []
  else if value = none ∧ oldValue = none then []
  else if value = none ∨ oldValue = none ∨ value ≠ oldValue then
    [FieldError.forbidden fldPath "field is frozen"]
  else []

/-- `FrozenByReflect` (part_001 lines 105-115), generic in the deep-equality
relation `dEq` standing for `equality.Semantic.DeepEqual`. -/
def FrozenByReflect {T : Type} (op : OpType) (fldPath : FieldPath)
    (value oldValue : T) (dEq : T → T → Bool) : List FieldError :=
  if op ≠ OpType.Update then []
  else if dEq value oldValue then []
  else [FieldError.forbidden fldPath "field is frozen"]

/-- `isUnsetComparable` (part_001 lines 204-210): nil pointer, or pointee
equal to the zero value of the type (`zero` stands for Go `var zero T`). -/
def isUnsetComparable {T : Type} [DecidableEq T] (zero : T) (v : Option T) : Bool :=
  match v with
  | none => true
  | some x => x = zero

/-- `immutableByCompareCheck` (part_001 lines 170-200): the shared
compare-based immutability core, parameterized by the unset predicate. -/
def immutableByCompareCheck {T : Type} [DecidableEq T] (op : OpType) (fldPath : FieldPath)
    (value oldValue : Option T) (isUnset : Option T → Bool) : List FieldError :=
  if op ≠ OpType.Update then []
  else if value = none ∧ oldValue = none then []
  else if oldValue = none then []
  else if value = none then [FieldError.forbidden fldPath "field is immutable"]
  else
    let oldIsUnset := isUnset oldValue
    let newIsUnset := isUnset value
    if oldIsUnset = newIsUnset ∧ value = oldValue then []
    else if oldIsUnset ∧ ¬newIsUnset then []
    else [FieldError.forbidden fldPath "field is immutable"]

/-- `ImmutableValueByCompare` (part_001 lines 125-127): zero value is
"unset"; delegates to `immutableByCompareCheck` with `isUnsetComparable`. -/
def ImmutableValueByCompare {T : Type} [DecidableEq T] (zero : T) (op : OpType)
    (fldPath : FieldPath) (value oldValue : Option T) : List FieldError :=
  immutableByCompareCheck op fldPath value oldValue (isUnsetComparable zero)

/-- `ImmutablePointerByCompare` (part_001 lines 138-142): nil is "unset",
any non-nil pointer is "set". -/
def ImmutablePointerByCompare {T : Type} [DecidableEq T] (op : OpType)
    (fldPath : FieldPath) (value oldValue : Option T) : List FieldError :=
  immutableByCompareCheck op fldPath value oldValue (fun v => v.isNone)

/-- `ImmutableByReflect` (part_001 lines 153-168), generic in the
deep-equality relation `dEq` (`equality.Semantic.DeepEqual`) and the unset
predicate `uns` (`isUnsetForReflect`). -/
def ImmutableByReflect {T : Type} (op : OpType) (fldPath : FieldPath)
    (value oldValue : T) (dEq : T → T → Bool) (uns : T → Bool) : List FieldError :=
  if op ≠ OpType.Update then []
  else if dEq value oldValue then []
  else
    let oldValueIsUnset := uns oldValue
    let valueIsUnset := uns value
    if oldValueIsUnset ∧ ¬valueIsUnset then []
    else [FieldError.forbidden fldPath "field is immutable"]

/-- `isUnsetForReflect` (part_001 lines 214-249) restricted to pointer
values `*T` (the reflect.Ptr branch, lines 219-234): a nil pointer is unset;
a non-nil pointer to a struct is unset exactly when the struct is its zero
value (`zeroEq`, the `reflect.DeepEqual(elem, zero)` test); a non-nil
pointer to any other kind is always set. -/
def isUnsetForReflectPtr {T : Type} (isStructKind : Bool) (zeroEq : T → Bool)
    (v : Option T) : Bool :=
  match v with
  | none => true
  | some x => if isStructKind then zeroEq x else false

/-- Modelled from the spec: `equality.Semantic.DeepEqual` specialized to a
pointer `*T` whose pointee type is comparable and pointer-free (the
`k8s.io/apimachinery/pkg/api/equality` package is not under src/; the spec
describes it as deep/structural equality).  Two pointers are deep-equal when
both are nil or their pointees are structurally equal. -/
def optEq {T : Type} [DecidableEq T] (a b : Option T) : Bool :=
  a = b

/-- The first element of `l` satisfying `p` together with its index, mirroring
the `for i := range newList` first-match loop of `ListMapItemByKeyValues`
(listmapitem.go lines 54-62). -/
def firstMatchIdx {T : Type} (p : T → Bool) : List T → Option (Nat × T)
  | [] => none
  | x :: xs => if p x then some (0, x) else (firstMatchIdx p xs).map (fun r => (r.1 + 1, r.2))

/-- `ListMapItemByKeyValues` (listmapitem.go lines 39-67): finds the first
item of each list satisfying `matchesFn` (the Go `matches` predicate); if neither exists, no validation; if
either exists, runs `itemValidator` once on (matched-new-or-nil,
matched-old-or-nil) at the new list's match index when present, else at the
bare field path. -/
def ListMapItemByKeyValues {T : Type} (op : OpType) (fldPath : FieldPath)
    (newList oldList : List T) (matchesFn : T → Bool)
    (itemValidator : OpType → FieldPath → Option T → Option T → List FieldError) :
    List FieldError :=
  let matchedOld : Option T := oldList.find? matchesFn
  let found := firstMatchIdx matchesFn newList
  let matchedNew : Option T := found.map Prod.snd
  let path : FieldPath :=
    match found with
    | some (i, _) => fldPath ++ [PathSeg.index i]
    | none => fldPath
  if matchedNew.isNone ∧ matchedOld.isNone then []
  else itemValidator op path matchedNew matchedOld

end validate

namespace ratcheting

/-- `lookup` (doc_test.go lines 265-272, copied from each.go): pointer to the
first element of the list matching the target under `cmp`, or nil. -/
def lookup {T : Type} (list : List T) (target : T) (cmp : T → T → Bool) : Option T :=
  match list with
  | [] => none
  | x :: xs => if cmp x target then some x else lookup xs target cmp

/-- The loop body of `EachSliceValLinearScan` (doc_test.go lines 245-259),
with the running index made explicit.  `matchFn` and `equiv` are nilable
(`validate.CompareFunc` values that may be Go nil). -/
def eachSliceValGo {T : Type} (op : OpType) (fldPath : FieldPath) (oldSlice : List T)
    (matchFn equiv : Option (T → T → Bool))
    (validator : OpType → FieldPath → T → Option T → List FieldError) :
    Nat → List T → List FieldError
  | _, [] => []
  | i, val :: rest =>
    let old : Option T :=
      match matchFn with
      | some m => if 0 < oldSlice.length then lookup oldSlice val m else none
      | none => none
    let skip : Bool :=
      (op == OpType.Update) && old.isSome &&
        (equiv.isNone ||
          (match equiv, old with
           | some e, some o => e val o
           | _, _ => false))
    if skip then eachSliceValGo op fldPath oldSlice matchFn equiv validator (i + 1) rest
    else
      validator op (fldPath ++ [PathSeg.index i]) val old ++
        eachSliceValGo op fldPath oldSlice matchFn equiv validator (i + 1) rest

/-- `EachSliceValLinearScan` (doc_test.go lines 242-260): iterate the new
slice; per element, find the first matching old element by linear scan; on
Update, skip the validator when a match exists and is equivalent (or no
equivalence function was supplied); otherwise validate at index `i`. -/
def EachSliceValLinearScan {T : Type} (op : OpType) (fldPath : FieldPath)
    (newSlice oldSlice : List T) (matchFn equiv : Option (T → T → Bool))
    (validator : OpType → FieldPath → T → Option T → List FieldError) :
    List FieldError :=
  eachSliceValGo op fldPath oldSlice matchFn equiv validator 0 newSlice

end ratcheting

namespace validation

/-- `maskTrailingDash` of the legacy `validation` package (part_002 lines
257-262): when the name is longer than one character and ends in a dash, the
final two characters are dropped and the fixed safe character `a` is
appended; otherwise the name is unchanged.  Go strings are modelled as
character lists (all relevant inputs are ASCII, so Go byte indexing agrees
with character indexing). -/
def maskTrailingDash (name : List Char) : List Char :=
  if 1 < name.length ∧ name.getLast? = some ('-' : Char) then
    name.take (name.length - 2) ++ [('a' : Char)]
  else name

end validation

namespace validate

/-- Modelled from the spec: `maskTrailingDash` of the `validate` package.
Its source file (strfmt.go) is not under src/; only its test
(strfmt_test.go lines 206-249) is.  Per the spec, when the string's length
is greater than 1 and it ends in a dash, the final two characters are
dropped and a fixed syntax-safe character is appended; the spec's scenario B
outputs ("foo-" becomes "fox") fix that character to `x`, matching every
expectation of the test. -/
def maskTrailingDash (name : List Char) : List Char :=
  if 1 < name.length ∧ name.getLast? = some ('-' : Char) then
    name.take (name.length - 2) ++ [('x' : Char)]
  else name

end validate

namespace common

/-- A Go-typed value as seen by the reflection adapter (valuesreflect.go).
Well-known domain types have their own constructors (the type-switch cases
of `TypedToVal`); type aliases of primitives collapse onto the primitive
constructors.  A nilable Go interface input is `Option GoV`; a nil pointer
is `gPtr none`.  The float payload is carried abstractly (the adapter only
relays it), as are time instants, durations and quantities. -/
inductive GoV where
  | gBool (b : Bool)
  | gInt (i : Int)
  | gFloat (bits : Int)
  | gString (s : String)
  | gBytes (bs : Option (List Nat))
  | gTime (t : Int)
  | gDuration (d : Int)
  | gIntOrString (typ : Int) (intVal : Int) (strVal : String)
  | gQuantity (q : String)
  | gPtr (p : Option GoV)
  | gSlice (xs : List GoV)
  | gMap (entries : List (String × GoV))
  | gStruct (name : String) (fields : List (String × GoV))

/-- The reflect kind of a value (`reflect.Value.Kind()`), as consulted by the
second, kind-based switch of `TypedToVal` (valuesreflect.go lines 89-107).
`metav1.Time`, `metav1.Duration`, `intstr.IntOrString` and
`resource.Quantity` are Go structs; `[]byte` is a slice. -/
inductive GoKind where
  | kBool
  | kInt
  | kFloat
  | kString
  | kSlice
  | kMap
  | kStruct
  | kPtr
deriving DecidableEq, Repr

/-- `reflect.Value.Kind()` for each modelled value. -/
def kindOf : GoV → GoKind
  | GoV.gBool _ => GoKind.kBool
  | GoV.gInt _ => GoKind.kInt
  | GoV.gFloat _ => GoKind.kFloat
  | GoV.gString _ => GoKind.kString
  | GoV.gBytes _ => GoKind.kSlice
  | GoV.gTime _ => GoKind.kStruct
  | GoV.gDuration _ => GoKind.kStruct
  | GoV.gIntOrString _ _ _ => GoKind.kStruct
  | GoV.gQuantity _ => GoKind.kStruct
  | GoV.gPtr _ => GoKind.kPtr
  | GoV.gSlice _ => GoKind.kSlice
  | GoV.gMap _ => GoKind.kMap
  | GoV.gStruct _ _ => GoKind.kStruct

/-- The dynamic CEL value produced by the adapter.  The structural wrappers
(`sliceVal`, `mapVal`, `structVal`) keep the underlying reflected value. -/
inductive CelVal where
  | celNull
  | celBool (b : Bool)
  | celInt (i : Int)
  | celDouble (bits : Int)
  | celString (s : String)
  | celBytes (bs : List Nat)
  | celTimestamp (t : Int)
  | celDuration (d : Int)
  | celQuantity (q : String)
  | celList (v : GoV)
  | celMap (v : GoV)
  | celObject (v : GoV)
  | celErr (msg : String)

/-- The kind-based structural dispatch of `TypedToVal` (the `switch v.Kind()`
at valuesreflect.go lines 89-107): slices become `sliceVal`, maps `mapVal`,
structs `structVal`; primitive kinds catch type aliases; anything else is an
error value. -/
def kindSwitch (v : GoV) : CelVal :=
  match kindOf v with
  | GoKind.kSlice => CelVal.celList v
  | GoKind.kMap => CelVal.celMap v
  | GoKind.kStruct => CelVal.celObject v
  | GoKind.kBool =>
    match v with
    | GoV.gBool b => CelVal.celBool b
    | _ => CelVal.celErr "unsupported Go type for CEL"
  | GoKind.kString =>
    match v with
    | GoV.gString s => CelVal.celString s
    | _ => CelVal.celErr "unsupported Go type for CEL"
  | GoKind.kInt =>
    match v with
    | GoV.gInt i => CelVal.celInt i
    | _ => CelVal.celErr "unsupported Go type for CEL"
  | GoKind.kFloat =>
    match v with
    | GoV.gFloat f => CelVal.celDouble f
    | _ => CelVal.celErr "unsupported Go type for CEL"
  | GoKind.kPtr => CelVal.celErr "unsupported Go type for CEL"

/-- The well-known-type override table of `TypedToVal` (the
`switch typedVal := val.(type)` at valuesreflect.go lines 52-87), falling
through to `kindSwitch` when no override applies.  An `IntOrString` whose
tag is neither Int (0) nor String (1) falls out of its case into the kind
switch, exactly as the Go `switch` does. -/
def typedSwitch (v : GoV) : CelVal :=
  match v with
  | GoV.gBool b => CelVal.celBool b
  | GoV.gInt i => CelVal.celInt i
  | GoV.gFloat f => CelVal.celDouble f
  | GoV.gString s => CelVal.celString s
  | GoV.gBytes none => CelVal.celNull
  | GoV.gBytes (some bs) => CelVal.celBytes bs
  | GoV.gTime t => CelVal.celTimestamp t
  | GoV.gDuration d => CelVal.celDuration d
  | GoV.gIntOrString typ iv sv =>
    if typ = 0 then CelVal.celInt iv
    else if typ = 1 then CelVal.celString sv
    else kindSwitch (GoV.gIntOrString typ iv sv)
  | GoV.gQuantity q => CelVal.celQuantity q
  | v => kindSwitch v

/-- The result of the pointer-dereferencing loop of `TypedToVal`
(valuesreflect.go lines 44-49): `none` when some pointer in the chain is
nil, otherwise the fully dereferenced non-pointer value. -/
def fullDeref : GoV → Option GoV
  | GoV.gPtr none => none
  | GoV.gPtr (some v) => fullDeref v
  | v => some v

/-- The dereferencing phase of `TypedToVal`: follow the pointer chain,
returning the dynamic null on a nil pointer at any depth, then convert the
dereferenced value through the two switches. -/
def typedToValDeref : GoV → CelVal
  | GoV.gPtr none => CelVal.celNull
  | GoV.gPtr (some v) => typedToValDeref v
  | v => typedSwitch v

/-- `TypedToVal` (valuesreflect.go lines 36-108): a nil interface input maps
to the dynamic null; otherwise pointers are dereferenced and the value is
converted, overrides first, kinds second. -/
def TypedToVal : Option GoV → CelVal
  | none => CelVal.celNull
  | some v => typedToValDeref v

end common

/-- A one-field comparable Go struct (in the style of `StructComparable` in
immutable_test.go), used to exercise the struct-kind branch of
`isUnsetForReflect`. -/
structure SItem where
  val : Int
deriving DecidableEq, Repr

/-- C6: the trailing-dash mask of the `validate` package maps "foo-" to
"fox", "foo---" to "foo-x", and leaves the one-character string "-"
unchanged (strfmt_test.go lines 206-239). -/
theorem mask_trailing_dash_exact_outputs :
    validate.maskTrailingDash ['f', 'o', 'o', '-'] = ['f', 'o', 'x'] ∧
    validate.maskTrailingDash ['f', 'o', 'o', '-', '-', '-'] =
      ['f', 'o', 'o', '-', 'x'] ∧
    validate.maskTrailingDash ['-'] = ['-'] := by
  refine ⟨by decide, by decide, by decide⟩

/-- C7: for every string longer than one character that ends in a dash,
`maskTrailingDash` drops the final two characters and appends the single
fixed safe character, so the result is exactly one character shorter; every
other string is returned unchanged. -/
theorem mask_trailing_dash_shape :
    ∀ name : List Char,
      (1 < name.length → name.getLast? = some ('-' : Char) →
        validation.maskTrailingDash name =
            name.take (name.length - 2) ++ [('a' : Char)] ∧
          (validation.maskTrailingDash name).length + 1 = name.length) ∧
      (¬(1 < name.length ∧ name.getLast? = some ('-' : Char)) →
        validation.maskTrailingDash name = name) := by
  intro name
  constructor
  · intro h1 h2
    have hmask : validation.maskTrailingDash name =
        name.take (name.length - 2) ++ [('a' : Char)] := by
      unfold validation.maskTrailingDash
      rw [if_pos ⟨h1, h2⟩]
    refine ⟨hmask, ?_⟩
    rw [hmask]
    simp [List.length_take]
    omega
  · intro h
    unfold validation.maskTrailingDash
    rw [if_neg h]

/-- Witness for C7 at the concrete input "foo-". -/
theorem mask_trailing_dash_shape_witness :
    validation.maskTrailingDash ['f', 'o', 'o', '-'] =
        (['f', 'o', 'o', '-'] : List Char).take
            ((['f', 'o', 'o', '-'] : List Char).length - 2) ++ [('a' : Char)] ∧
      (validation.maskTrailingDash ['f', 'o', 'o', '-']).length + 1 =
        (['f', 'o', 'o', '-'] : List Char).length :=
  (mask_trailing_dash_shape ['f', 'o', 'o', '-']).1 (by decide) (by decide)

/-- C9: `EqOneOf` accepts a nil value pointer for every operation; for a set
value it returns the empty list exactly when the value is a member of the
allowed set, and otherwise returns exactly one NotSupported error carrying
origin "k8s:eqOneOf". -/
theorem eq_one_of_spec :
    ∀ (T : Type) [inst : DecidableEq T] (op : OpType) (fldPath : FieldPath)
      (old : Option T) (allowed : List T) (fmtv : T → String) (v : T),
      validate.EqOneOf op fldPath none old allowed fmtv = [] ∧
      (validate.EqOneOf op fldPath (some v) old allowed fmtv = [] ↔ v ∈ allowed) ∧
      (validate.EqOneOf op fldPath (some v) old allowed fmtv =
          [(FieldError.notSupported fldPath (fmtv v)
              (allowed.map fmtv)).withOrigin "k8s:eqOneOf"] ↔
        v ∉ allowed) := by
  intro T inst op fldPath old allowed fmtv v
  have hany : (allowed.any (fun a => v = a)) = true ↔ v ∈ allowed := by
    rw [List.any_eq_true]
    constructor
    · rintro ⟨a, ha, hv⟩
      have hva : v = a := of_decide_eq_true hv
      rwa [hva]
    · intro hm
      exact ⟨v, hm, by simp⟩
  have hdef : validate.EqOneOf op fldPath (some v) old allowed fmtv =
      if (allowed.any (fun a => v = a)) then []
      else [(FieldError.notSupported fldPath (fmtv v)
          (allowed.map fmtv)).withOrigin "k8s:eqOneOf"] := rfl
  refine ⟨rfl, ?_, ?_⟩ <;> rw [hdef]
  · cases h : (allowed.any (fun a => v = a)) with
    | true => simpa [h] using hany.mp h
    | false =>
      have hnm : v ∉ allowed := fun hm => by rw [hany.mpr hm] at h; cases h
      simpa [h] using hnm
  · cases h : (allowed.any (fun a => v = a)) with
    | true =>
      have hm := hany.mp h
      simp only [h, if_true]
      constructor
      · intro hcontr; cases hcontr
      · intro hcontr; exact absurd hm hcontr
    | false =>
      have hnm : v ∉ allowed := fun hm => by rw [hany.mpr hm] at h; cases h
      simp [h, hnm]

/-- C10: on Update the compare-based immutable validators always accept when
the old-value pointer is nil, whatever the new value is; and a nil new-value
pointer with a non-nil old-value pointer is always forbidden. -/
theorem immutable_nil_old_permits :
    ∀ (T : Type) [inst : DecidableEq T] (zero : T) (fldPath : FieldPath)
      (v : Option T) (b : T),
      validate.ImmutableValueByCompare zero OpType.Update fldPath v none = [] ∧
      validate.ImmutablePointerByCompare OpType.Update fldPath v none = [] ∧
      validate.ImmutableValueByCompare zero OpType.Update fldPath none (some b) =
        [FieldError.forbidden fldPath "field is immutable"] ∧
      validate.ImmutablePointerByCompare OpType.Update fldPath none (some b) =
        [FieldError.forbidden fldPath "field is immutable"] := by
  intro T inst zero fldPath v b
  refine ⟨?_, ?_, ?_, ?_⟩ <;>
    cases v <;>
      simp [validate.ImmutableValueByCompare, validate.ImmutablePointerByCompare,
        validate.immutableByCompareCheck]

/-- C5 counterexample: with no old value supplied (nil old pointer) and a
set new value, `FrozenByCompare` on Update returns a Forbidden error, where
the claim says the pair is allowed.  The in-src test (immutable_test.go,
case "nil oldValue") expects exactly this failure. -/
theorem frozen_policy_counterexample :
    validate.FrozenByCompare OpType.Update [] (some (123 : Int)) none =
        [FieldError.forbidden [] "field is frozen"] ∧
    validate.FrozenByCompare OpType.Update [] (some (123 : Int)) none ≠ [] := by
  refine ⟨by decide, by decide⟩

/-- C5 amended: on Update the frozen validators allow a pair exactly when
old and new pointers are equal (both nil, or both set with equal pointees);
every other pair — including a nil old pointer with a set new value — gets
the single Forbidden "field is frozen" error; Create always allows. -/
theorem frozen_policy_amended :
    ∀ (T : Type) [inst : DecidableEq T] (fldPath : FieldPath) (v o : Option T),
      validate.FrozenByCompare OpType.Create fldPath v o = [] ∧
      validate.FrozenByReflect OpType.Create fldPath v o validate.optEq = [] ∧
      (validate.FrozenByCompare OpType.Update fldPath v o = [] ↔ v = o) ∧
      (validate.FrozenByReflect OpType.Update fldPath v o validate.optEq = [] ↔ v = o) ∧
      (validate.FrozenByCompare OpType.Update fldPath v o = [] ∨
        validate.FrozenByCompare OpType.Update fldPath v o =
          [FieldError.forbidden fldPath "field is frozen"]) ∧
      (validate.FrozenByReflect OpType.Update fldPath v o validate.optEq = [] ∨
        validate.FrozenByReflect OpType.Update fldPath v o validate.optEq =
          [FieldError.forbidden fldPath "field is frozen"]) := by
  intro T inst fldPath v o
  refine ⟨rfl, rfl, ?_, ?_, ?_, ?_⟩ <;>
    cases v <;> cases o <;>
      simp [validate.FrozenByCompare, validate.FrozenByReflect, validate.optEq] <;>
        try exact eq_or_ne _ _

/-- C2 counterexample: at a comparable struct element type, the transition
nil-pointer to pointer-to-zero-struct is allowed by
`ImmutablePointerByCompare` (any non-nil pointer is "set") but forbidden by
`ImmutableByReflect` (a pointer to a zero struct counts as "unset" for
`isUnsetForReflect`, so the pair is two unequal unset values).  The two
strategies therefore do not return the same verdict on this pointer pair. -/
theorem strategy_pair_equivalence_counterexample :
    validate.ImmutablePointerByCompare OpType.Update []
        (some (⟨0⟩ : SItem)) none = [] ∧
    validate.ImmutableByReflect OpType.Update []
        (some (⟨0⟩ : SItem) : Option SItem) none validate.optEq
        (validate.isUnsetForReflectPtr true (fun x => decide (x = (⟨0⟩ : SItem)))) =
      [FieldError.forbidden [] "field is immutable"] := by
  refine ⟨by decide, by decide⟩

/-- C2 amended: `FrozenByCompare` and `FrozenByReflect` return identical
results on every pointer pair of a comparable pointer-free type; the
immutable pair `ImmutablePointerByCompare` / `ImmutableByReflect` returns
identical results on every pointer pair whose element kind is not a struct
(for struct element kinds the verdicts can differ, as witnessed by the
counterexample). -/
theorem strategy_pair_equivalence_amended :
    ∀ (T : Type) [inst : DecidableEq T] (op : OpType) (fldPath : FieldPath)
      (v o : Option T) (zeroEq : T → Bool),
      validate.FrozenByCompare op fldPath v o =
        validate.FrozenByReflect op fldPath v o validate.optEq ∧
      validate.ImmutablePointerByCompare op fldPath v o =
        validate.ImmutableByReflect op fldPath v o validate.optEq
          (validate.isUnsetForReflectPtr false zeroEq) := by
  intro T inst op fldPath v o zeroEq
  cases op <;>
    constructor <;>
      cases v <;> cases o <;>
        simp [validate.FrozenByCompare, validate.FrozenByReflect,
          validate.ImmutablePointerByCompare, validate.immutableByCompareCheck,
          validate.ImmutableByReflect, validate.isUnsetForReflectPtr,
          validate.optEq]

/-- C1 counterexample: two both-unset pairs that the claimed transition
table says must be allowed are in fact forbidden on Update.  For
`ImmutableValueByCompare` at int, the old pointer points at the zero value
(unset per `isUnsetComparable`) and the new pointer is nil (unset), yet the
result is Forbidden.  For `ImmutableByReflect` at a pointer-to-struct type,
the old pointer is nil (unset per `isUnsetForReflect`) and the new pointer
points at the zero struct (also unset), yet the result is Forbidden. -/
theorem immutable_policy_counterexample :
    (validate.isUnsetComparable (0 : Int) (none : Option Int) = true ∧
      validate.isUnsetComparable (0 : Int) (some 0) = true ∧
      validate.ImmutableValueByCompare (0 : Int) OpType.Update [] none (some 0) =
        [FieldError.forbidden [] "field is immutable"]) ∧
    (validate.isUnsetForReflectPtr true (fun x => decide (x = (⟨0⟩ : SItem)))
        (none : Option SItem) = true ∧
      validate.isUnsetForReflectPtr true (fun x => decide (x = (⟨0⟩ : SItem)))
        (some ⟨0⟩) = true ∧
      validate.ImmutableByReflect OpType.Update []
          (some (⟨0⟩ : SItem) : Option SItem) none validate.optEq
          (validate.isUnsetForReflectPtr true (fun x => decide (x = (⟨0⟩ : SItem)))) =
        [FieldError.forbidden [] "field is immutable"]) := by
  refine ⟨⟨by decide, by decide, by decide⟩, ⟨by decide, by decide, by decide⟩⟩

/-- C1 amended: on Create the immutable validators never return an error.
On Update they allow unset-to-set and equal set-to-set pairs and forbid
set-to-unset and unequal set-to-set pairs, but a both-unset pair is allowed
only when the two values are equal; additionally `immutableByCompareCheck`
always allows when the old pointer is nil and always forbids a nil new
pointer against a non-nil old pointer, so the both-unset pair
(old = pointer-to-zero, new = nil) is forbidden while (old = nil,
new = pointer-to-zero) is allowed.  Any error returned is the single
Forbidden "field is immutable" error. -/
theorem immutable_transition_policy_amended :
    ∀ (T : Type) [inst : DecidableEq T] (zero : T) (fldPath : FieldPath) (v o : Option T),
      (∀ u : Option T → Bool,
        validate.immutableByCompareCheck OpType.Create fldPath v o u = []) ∧
      (∀ (A : Type) (a b : A) (dEq : A → A → Bool) (uns : A → Bool),
        validate.ImmutableByReflect OpType.Create fldPath a b dEq uns = []) ∧
      (validate.ImmutableValueByCompare zero OpType.Update fldPath v o = [] ↔
        ((validate.isUnsetComparable zero o ∧ validate.isUnsetComparable zero v ∧
            ¬(v = none ∧ o ≠ none)) ∨
          (validate.isUnsetComparable zero o ∧ ¬validate.isUnsetComparable zero v) ∨
          (¬validate.isUnsetComparable zero o ∧ ¬validate.isUnsetComparable zero v ∧
            v = o))) ∧
      (validate.ImmutableValueByCompare zero OpType.Update fldPath v o = [] ∨
        validate.ImmutableValueByCompare zero OpType.Update fldPath v o =
          [FieldError.forbidden fldPath "field is immutable"]) ∧
      (validate.ImmutableByReflect OpType.Update fldPath v o validate.optEq
          (validate.isUnsetForReflectPtr true (fun x => decide (x = zero))) = [] ↔
        ((validate.isUnsetForReflectPtr true (fun x => decide (x = zero)) o ∧
            validate.isUnsetForReflectPtr true (fun x => decide (x = zero)) v ∧
            v = o) ∨
          (validate.isUnsetForReflectPtr true (fun x => decide (x = zero)) o ∧
            ¬validate.isUnsetForReflectPtr true (fun x => decide (x = zero)) v) ∨
          (¬validate.isUnsetForReflectPtr true (fun x => decide (x = zero)) o ∧
            ¬validate.isUnsetForReflectPtr true (fun x => decide (x = zero)) v ∧
            v = o))) ∧
      (validate.ImmutableByReflect OpType.Update fldPath v o validate.optEq
          (validate.isUnsetForReflectPtr true (fun x => decide (x = zero))) = [] ∨
        validate.ImmutableByReflect OpType.Update fldPath v o validate.optEq
          (validate.isUnsetForReflectPtr true (fun x => decide (x = zero))) =
          [FieldError.forbidden fldPath "field is immutable"]) := by
  intro T inst zero fldPath v o
  refine ⟨fun u => rfl, fun A a b dEq uns => rfl, ?_, ?_, ?_, ?_⟩
  · cases v with
    | none =>
      cases o with
      | none =>
        simp [validate.ImmutableValueByCompare, validate.immutableByCompareCheck,
          validate.isUnsetComparable]
      | some b =>
        simp [validate.ImmutableValueByCompare, validate.immutableByCompareCheck,
          validate.isUnsetComparable]
    | some a =>
      cases o with
      | none =>
        simp [validate.ImmutableValueByCompare, validate.immutableByCompareCheck,
          validate.isUnsetComparable]
        exact eq_or_ne a zero
      | some b =>
        rcases eq_or_ne a b with hab | hab
        · subst hab
          by_cases haz : a = zero <;>
            simp_all [validate.ImmutableValueByCompare,
              validate.immutableByCompareCheck, validate.isUnsetComparable]
        · by_cases haz : a = zero <;> by_cases hbz : b = zero <;>
            simp_all [validate.ImmutableValueByCompare,
              validate.immutableByCompareCheck, validate.isUnsetComparable]
  · unfold validate.ImmutableValueByCompare validate.immutableByCompareCheck
    repeat' split
    all_goals try simp
    all_goals repeat' split
    all_goals simp_all
  · cases v with
    | none =>
      cases o with
      | none =>
        simp [validate.ImmutableByReflect, validate.isUnsetForReflectPtr,
          validate.optEq]
      | some b =>
        by_cases hbz : b = zero <;>
          simp_all [validate.ImmutableByReflect, validate.isUnsetForReflectPtr,
            validate.optEq]
    | some a =>
      cases o with
      | none =>
        by_cases haz : a = zero <;>
          simp_all [validate.ImmutableByReflect, validate.isUnsetForReflectPtr,
            validate.optEq]
      | some b =>
        rcases eq_or_ne a b with hab | hab
        · subst hab
          by_cases haz : a = zero <;>
            simp_all [validate.ImmutableByReflect, validate.isUnsetForReflectPtr,
              validate.optEq]
        · by_cases haz : a = zero <;> by_cases hbz : b = zero <;>
            simp_all [validate.ImmutableByReflect, validate.isUnsetForReflectPtr,
              validate.optEq]
  · unfold validate.ImmutableByReflect
    repeat' split
    all_goals simp

/-- If `lookup` finds a match, the list is non-empty. -/
theorem ratcheting.lookup_some_pos {T : Type} (list : List T) (target : T)
    (cmp : T → T → Bool) (o : T) (h : ratcheting.lookup list target cmp = some o) :
    0 < list.length := by
  cases list with
  | nil => cases h
  | cons x xs => simp

/-- Elementwise skipping: when every element of the remaining new slice has
an equivalent first match in the old slice, the loop body adds no errors. -/
theorem ratcheting.eachSliceValGo_all_skipped {T : Type} (fldPath : FieldPath)
    (oldSlice : List T) (m : T → T → Bool) (equiv : Option (T → T → Bool))
    (validator : OpType → FieldPath → T → Option T → List FieldError) :
    ∀ (newSlice : List T) (i : Nat),
      (∀ val ∈ newSlice, ∃ o, ratcheting.lookup oldSlice val m = some o ∧
        ∀ e, equiv = some e → e val o = true) →
      ratcheting.eachSliceValGo OpType.Update fldPath oldSlice (some m) equiv
        validator i newSlice = [] := by
  intro newSlice
  induction newSlice with
  | nil => intro i h; rfl
  | cons val rest ih =>
    intro i h
    obtain ⟨o, hlook, hequiv⟩ := h val (List.mem_cons_self val rest)
    have hpos : 0 < oldSlice.length := ratcheting.lookup_some_pos _ _ _ _ hlook
    have hrest := ih (i + 1) (fun x hx => h x (List.mem_cons_of_mem val hx))
    cases equiv with
    | none =>
      simp [ratcheting.eachSliceValGo, hpos, hlook, hrest]
      intro hfalse
      exact absurd hfalse (by decide)
    | some e =>
      have he : e val o = true := hequiv e rfl
      simp [ratcheting.eachSliceValGo, hpos, hlook, he, hrest]
      intro hfalse
      exact absurd hfalse (by decide)

/-- C3: for the linear-scan slice iteration engine, if every new element's
first old match (under the match function) is equivalent to it (under the
equivalence function, or with no equivalence function supplied), an Update
returns no errors for every possible per-element validator — equivalently,
the validator is never invoked. -/
theorem each_slice_val_ratcheting :
    ∀ (T : Type) (fldPath : FieldPath) (newSlice oldSlice : List T)
      (m : T → T → Bool) (equiv : Option (T → T → Bool))
      (validator : OpType → FieldPath → T → Option T → List FieldError),
      (∀ val ∈ newSlice, ∃ o, ratcheting.lookup oldSlice val m = some o ∧
        ∀ e, equiv = some e → e val o = true) →
      ratcheting.EachSliceValLinearScan OpType.Update fldPath newSlice oldSlice
        (some m) equiv validator = [] := by
  intro T fldPath newSlice oldSlice m equiv validator h
  exact ratcheting.eachSliceValGo_all_skipped fldPath oldSlice m equiv validator
    newSlice 0 h

/-- Witness for C3: a one-element update with an identical old element and a
validator that always errors produces no errors. -/
theorem each_slice_val_ratcheting_witness :
    ratcheting.EachSliceValLinearScan OpType.Update [] [(1 : Int)] [(1 : Int)]
      (some (fun a b => decide (a = b))) none
      (fun _ fp _ _ => [FieldError.forbidden fp "always fails"]) = [] :=
  each_slice_val_ratcheting Int [] [1] [1] (fun a b => decide (a = b)) none
    (fun _ fp _ _ => [FieldError.forbidden fp "always fails"])
    (by
      intro val hval
      have hv : val = 1 := by simpa using hval
      subst hv
      refine ⟨1, by decide, ?_⟩
      intro e he
      cases he)

/-- `firstMatchIdx` returns none exactly on lists with no matching element. -/
theorem validate.firstMatchIdx_eq_none {T : Type} (p : T → Bool) :
    ∀ l : List T, (∀ x ∈ l, p x = false) → validate.firstMatchIdx p l = none := by
  intro l
  induction l with
  | nil => intro _; rfl
  | cons a as ih =>
    intro h
    have ha : p a = false := h a (List.mem_cons_self a as)
    have has := ih (fun x hx => h x (List.mem_cons_of_mem a hx))
    simp [validate.firstMatchIdx, ha, has]

/-- `firstMatchIdx` finds the least-index matching element. -/
theorem validate.firstMatchIdx_spec {T : Type} (p : T → Bool) :
    ∀ (l : List T) (i : Nat) (x : T), validate.firstMatchIdx p l = some (i, x) →
      l[i]? = some x ∧ p x = true ∧
        ∀ j, j < i → ∀ y, l[j]? = some y → p y = false := by
  intro l
  induction l with
  | nil => intro i x h; cases h
  | cons a as ih =>
    intro i x h
    rcases Bool.eq_false_or_eq_true (p a) with ha | ha
    · rw [show validate.firstMatchIdx p (a :: as) = some (0, a) from by
        simp [validate.firstMatchIdx, ha]] at h
      have hpair : (i, x) = (0, a) := (Option.some.inj h).symm
      have hi : i = 0 := (Prod.ext_iff.mp hpair).1
      have hx : x = a := (Prod.ext_iff.mp hpair).2
      subst hi
      subst hx
      refine ⟨by simp, ha, ?_⟩
      intro j hj
      exact absurd hj (Nat.not_lt_zero j)
    · rw [show validate.firstMatchIdx p (a :: as) =
          (validate.firstMatchIdx p as).map (fun r => (r.1 + 1, r.2)) from by
        simp [validate.firstMatchIdx, ha]] at h
      cases hrec : validate.firstMatchIdx p as with
      | none => rw [hrec] at h; cases h
      | some r =>
        rw [hrec] at h
        have hpair : (i, x) = (r.1 + 1, r.2) := (Option.some.inj h).symm
        have hi : i = r.1 + 1 := (Prod.ext_iff.mp hpair).1
        have hx : x = r.2 := (Prod.ext_iff.mp hpair).2
        subst hi
        subst hx
        obtain ⟨h1, h2, h3⟩ := ih r.1 r.2 hrec
        refine ⟨by simpa using h1, h2, ?_⟩
        intro j hj y hy
        cases j with
        | zero =>
          have hya : y = a := by simpa using hy.symm
          rw [hya]
          exact ha
        | succ jp =>
          exact h3 jp (by omega) y (by simpa using hy)

/-- C4: `ListMapItemByKeyValues` locates at most the first matching element
of each list by linear scan.  With no match in either list it returns no
errors (for every validator, so the validator is never invoked); with a
match in the new list it returns exactly one validator invocation at the new
list's match index, passing the first old match or nil; with a match only in
the old list it invokes the validator once at the unmodified base path with
a nil new element. -/
theorem list_map_item_by_key_values_spec :
    ∀ (T : Type) (op : OpType) (fldPath : FieldPath) (newList oldList : List T)
      (p : T → Bool)
      (validator : OpType → FieldPath → Option T → Option T → List FieldError),
      ((∀ x ∈ newList, p x = false) → (∀ x ∈ oldList, p x = false) →
        validate.ListMapItemByKeyValues op fldPath newList oldList p validator = []) ∧
      (∀ i x, validate.firstMatchIdx p newList = some (i, x) →
        validate.ListMapItemByKeyValues op fldPath newList oldList p validator =
            validator op (fldPath ++ [PathSeg.index i]) (some x) (oldList.find? p) ∧
          newList[i]? = some x ∧ p x = true ∧
          (∀ j, j < i → ∀ y, newList[j]? = some y → p y = false)) ∧
      ((∀ x ∈ newList, p x = false) → ∀ b, oldList.find? p = some b →
        validate.ListMapItemByKeyValues op fldPath newList oldList p validator =
          validator op fldPath none (some b)) := by
  intro T op fldPath newList oldList p validator
  refine ⟨?_, ?_, ?_⟩
  · intro hnew hold
    have hfm := validate.firstMatchIdx_eq_none p newList hnew
    have hfind : oldList.find? p = none := by
      rw [List.find?_eq_none]
      intro x hx
      simp [hold x hx]
    simp [validate.ListMapItemByKeyValues, hfm, hfind]
  · intro i x h
    obtain ⟨h1, h2, h3⟩ := validate.firstMatchIdx_spec p newList i x h
    refine ⟨?_, h1, h2, h3⟩
    simp [validate.ListMapItemByKeyValues, h]
  · intro hnew b hb
    have hfm := validate.firstMatchIdx_eq_none p newList hnew
    simp [validate.ListMapItemByKeyValues, hfm, hb]

/-- Witness for C4: a singleton new list whose element matches is validated
once at index 0 of the base path, with no old counterpart. -/
theorem list_map_item_by_key_values_spec_witness :
    validate.ListMapItemByKeyValues OpType.Update [] [(5 : Int)] []
        (fun z => decide (z = 5))
        (fun _ fp _ _ => [FieldError.forbidden fp "seen"]) =
      [FieldError.forbidden [PathSeg.index 0] "seen"] := by
  have h := (list_map_item_by_key_values_spec Int OpType.Update [] [5] []
      (fun z => decide (z = 5))
      (fun _ fp _ _ => [FieldError.forbidden fp "seen"])).2.1 0 5 (by decide)
  simpa using h.1

/-- The dereferencing loop computes `fullDeref`: a nil pointer at any depth
yields the dynamic null, otherwise the fully dereferenced value is converted
by the two switches. -/
theorem common.typedToValDeref_eq : ∀ v : common.GoV,
    common.typedToValDeref v =
      (match common.fullDeref v with
       | none => common.CelVal.celNull
       | some u => common.typedSwitch u)
  | common.GoV.gBool b => rfl
  | common.GoV.gInt i => rfl
  | common.GoV.gFloat f => rfl
  | common.GoV.gString s => rfl
  | common.GoV.gBytes bs => rfl
  | common.GoV.gTime t => rfl
  | common.GoV.gDuration d => rfl
  | common.GoV.gIntOrString a b c => rfl
  | common.GoV.gQuantity q => rfl
  | common.GoV.gPtr none => rfl
  | common.GoV.gPtr (some v) => by
    have ih := common.typedToValDeref_eq v
    simpa [common.typedToValDeref, common.fullDeref] using ih
  | common.GoV.gSlice xs => rfl
  | common.GoV.gMap es => rfl
  | common.GoV.gStruct n fs => rfl

/-- C8: `TypedToVal` maps a nil input, or a pointer chain ending in nil at
any depth, to the dynamic null, and otherwise converts the fully
dereferenced value; the well-known-type overrides (primitives, bytes, Time,
Duration, IntOrString, Quantity) are applied before the kind-based
structural dispatch, even though their reflect kinds are struct or slice;
non-overridden slices, maps and structs get the structural wrappers. -/
theorem typed_to_val_spec :
    common.TypedToVal none = common.CelVal.celNull ∧
    (∀ v : common.GoV, common.fullDeref v = none →
      common.TypedToVal (some v) = common.CelVal.celNull) ∧
    (∀ v u : common.GoV, common.fullDeref v = some u →
      common.TypedToVal (some v) = common.typedSwitch u) ∧
    (∀ t, common.typedSwitch (common.GoV.gTime t) = common.CelVal.celTimestamp t ∧
      common.kindOf (common.GoV.gTime t) = common.GoKind.kStruct) ∧
    (∀ d, common.typedSwitch (common.GoV.gDuration d) = common.CelVal.celDuration d ∧
      common.kindOf (common.GoV.gDuration d) = common.GoKind.kStruct) ∧
    (∀ iv sv,
      common.typedSwitch (common.GoV.gIntOrString 0 iv sv) = common.CelVal.celInt iv ∧
      common.typedSwitch (common.GoV.gIntOrString 1 iv sv) = common.CelVal.celString sv ∧
      common.typedSwitch (common.GoV.gIntOrString 2 iv sv) =
        common.CelVal.celObject (common.GoV.gIntOrString 2 iv sv) ∧
      common.kindOf (common.GoV.gIntOrString 0 iv sv) = common.GoKind.kStruct) ∧
    (∀ q, common.typedSwitch (common.GoV.gQuantity q) = common.CelVal.celQuantity q ∧
      common.kindOf (common.GoV.gQuantity q) = common.GoKind.kStruct) ∧
    (∀ bs, common.typedSwitch (common.GoV.gBytes (some bs)) = common.CelVal.celBytes bs ∧
      common.kindOf (common.GoV.gBytes (some bs)) = common.GoKind.kSlice) ∧
    common.typedSwitch (common.GoV.gBytes none) = common.CelVal.celNull ∧
    (∀ b, common.typedSwitch (common.GoV.gBool b) = common.CelVal.celBool b) ∧
    (∀ i, common.typedSwitch (common.GoV.gInt i) = common.CelVal.celInt i) ∧
    (∀ f, common.typedSwitch (common.GoV.gFloat f) = common.CelVal.celDouble f) ∧
    (∀ s, common.typedSwitch (common.GoV.gString s) = common.CelVal.celString s) ∧
    (∀ xs, common.typedSwitch (common.GoV.gSlice xs) =
      common.CelVal.celList (common.GoV.gSlice xs)) ∧
    (∀ es, common.typedSwitch (common.GoV.gMap es) =
      common.CelVal.celMap (common.GoV.gMap es)) ∧
    (∀ n fs, common.typedSwitch (common.GoV.gStruct n fs) =
      common.CelVal.celObject (common.GoV.gStruct n fs)) := by
  refine ⟨rfl, ?_, ?_, ?_, ?_, ?_, ?_, ?_, rfl, ?_, ?_, ?_, ?_, ?_, ?_, ?_⟩
  · intro v h
    show common.typedToValDeref v = common.CelVal.celNull
    rw [common.typedToValDeref_eq v, h]
  · intro v u h
    show common.typedToValDeref v = common.typedSwitch u
    rw [common.typedToValDeref_eq v, h]
  · intro t; exact ⟨rfl, rfl⟩
  · intro d; exact ⟨rfl, rfl⟩
  · intro iv sv; exact ⟨rfl, rfl, rfl, rfl⟩
  · intro q; exact ⟨rfl, rfl⟩
  · intro bs; exact ⟨rfl, rfl⟩
  · intro b; rfl
  · intro i; rfl
  · intro f; rfl
  · intro s; rfl
  · intro xs; rfl
  · intro es; rfl
  · intro n fs; rfl

/-- Witness for C8: a double pointer ending in nil converts to null; a
pointer to an int converts to the dereferenced int. -/
theorem typed_to_val_spec_witness :
    common.TypedToVal (some (common.GoV.gPtr (some (common.GoV.gPtr none)))) =
        common.CelVal.celNull ∧
    common.TypedToVal (some (common.GoV.gPtr (some (common.GoV.gInt 7)))) =
      common.CelVal.celInt 7 := by
  constructor
  · exact typed_to_val_spec.2.1 (common.GoV.gPtr (some (common.GoV.gPtr none))) rfl
  · exact typed_to_val_spec.2.2.1 (common.GoV.gPtr (some (common.GoV.gInt 7)))
      (common.GoV.gInt 7) rfl
